import Mathlib

/-!
Shallow embedding of `src/ch2_OOP.py`: a credit-card account model
(`CreditCard` and its subtype `PredatoryCreditCard`) and a family of
progression iterators (`Progression` with arithmetic, geometric and
Fibonacci variants).  Numeric values are modelled as rationals (`ℚ`);
the one operation that genuinely needs real arithmetic,
`process_month`, is modelled separately over `ℝ`.
-/

/-- State of a `CreditCard` instance (src/ch2_OOP.py lines 1–53):
customer, bank and account identifiers, the credit limit fixed at
construction, and the mutable balance. -/
structure CreditCard where
  customer : String
  bank : String
  account : String
  limit : ℚ
  balance : ℚ
  deriving DecidableEq

/-- `CreditCard.__init__`: the initial balance is zero. -/
def CreditCard.init (customer bank acnt : String) (limit : ℚ) : CreditCard :=
  { customer := customer, bank := bank, account := acnt, limit := limit, balance := 0 }

/-- `CreditCard.charge`: if `price + balance > limit` the charge is denied
(return `false`, state unchanged); otherwise the price is added to the
balance and the charge is processed (return `true`). -/
def CreditCard.charge (c : CreditCard) (price : ℚ) : Bool × CreditCard :=
  if price + c.balance > c.limit then (false, c)
  else (true, { c with balance := c.balance + price })

/-- `CreditCard.make_payment`: unconditionally subtract the amount from the
balance. -/
def CreditCard.make_payment (c : CreditCard) (amount : ℚ) : CreditCard :=
  { c with balance := c.balance - amount }

/-- The state reached by charging each price of a list in order. -/
def CreditCard.chargeList (c : CreditCard) : List ℚ → CreditCard
  | [] => c
  | p :: ps => CreditCard.chargeList (c.charge p).2 ps

/-- State of a `PredatoryCreditCard` (src/ch2_OOP.py lines 55–89): a
`CreditCard` together with an annual percentage rate. -/
structure PredatoryCreditCard extends CreditCard where
  apr : ℚ
  deriving DecidableEq

/-- `PredatoryCreditCard.__init__`: delegates to the base constructor and
stores the annual percentage rate. -/
def PredatoryCreditCard.init (customer bank acnt : String) (limit apr : ℚ) :
    PredatoryCreditCard :=
  { CreditCard.init customer bank acnt limit with apr := apr }

/-- `PredatoryCreditCard.charge`: call the inherited charge; if it was
denied, assess a flat 5-unit penalty on the balance before returning the
inherited result. -/
def PredatoryCreditCard.charge (p : PredatoryCreditCard) (price : ℚ) :
    Bool × PredatoryCreditCard :=
  match p.toCreditCard.charge price with
  | (true, c) => (true, { p with toCreditCard := c })
  | (false, c) => (false, { p with toCreditCard := { c with balance := c.balance + 5 } })

/-- `make_payment` is inherited unchanged from `CreditCard`. -/
def PredatoryCreditCard.make_payment (p : PredatoryCreditCard) (amount : ℚ) :
    PredatoryCreditCard :=
  { p with toCreditCard := p.toCreditCard.make_payment amount }

/-- The state reached by charging each price of a list in order. -/
def PredatoryCreditCard.chargeList (p : PredatoryCreditCard) :
    List ℚ → PredatoryCreditCard
  | [] => p
  | q :: qs => PredatoryCreditCard.chargeList (p.charge q).2 qs

/-- Real-valued view of a predatory account for `process_month`, whose
monthly factor `(1 + apr) ** (1 / 12)` is genuine real exponentiation. -/
structure PredatoryAccountR where
  balance : ℝ
  apr : ℝ

/-- `PredatoryCreditCard.process_month`: on a positive balance, multiply the
balance by the monthly factor `(1 + apr) ^ (1/12)`; otherwise do nothing. -/
noncomputable def PredatoryAccountR.process_month (s : PredatoryAccountR) :
    PredatoryAccountR :=
  if 0 < s.balance then { s with balance := s.balance * (1 + s.apr) ^ ((1 : ℝ) / 12) }
  else s

/-- Combined state space of the four progression variants of
src/ch2_OOP.py lines 91–175: the current value (`none` is the exhausted
sentinel of the source's convention) together with the variant-specific
parameters (increment, base, or the previous Fibonacci value). -/
inductive ProgState where
  | base (current : Option ℚ)
  | arith (increment : ℚ) (current : Option ℚ)
  | geom (b : ℚ) (current : Option ℚ)
  | fib (prev : ℚ) (current : Option ℚ)
  deriving DecidableEq

/-- `self._current`, the value `__next__` consults. -/
def ProgState.currentOpt : ProgState → Option ℚ
  | .base c => c
  | .arith _ c => c
  | .geom _ c => c
  | .fib _ c => c

/-- `_advance`, per variant: `current += 1`, `current += increment`,
`current *= base`, or the Fibonacci simultaneous assignment
`prev, current = current, prev + current`.  The source only ever invokes
`_advance` on a non-exhausted progression; exhausted states are left
unchanged here. -/
def ProgState.advance : ProgState → ProgState
  | .base (some v) => .base (some (v + 1))
  | .arith inc (some v) => .arith inc (some (v + inc))
  | .geom b (some v) => .geom b (some (v * b))
  | .fib p (some v) => .fib v (some (p + v))
  | s => s

/-- `Progression.__next__`: on the sentinel, signal end of sequence
(modelled as producing `none`) and leave the state untouched; otherwise
return the current value and advance once. -/
def ProgState.step (s : ProgState) : Option ℚ × ProgState :=
  match s.currentOpt with
  | none => (none, s)
  | some v => (some v, s.advance)

/-- The state after `n` calls to `__next__`. -/
def ProgState.stepN : ProgState → ℕ → ProgState
  | s, 0 => s
  | s, n + 1 => ProgState.stepN (s.step).2 n

/-- The value produced by the `k`-th call (0-indexed) to `__next__`. -/
def ProgState.term (s : ProgState) (k : ℕ) : Option ℚ :=
  ((s.stepN k).step).1

/-- `Progression.__init__` (the source defaults `start` to 0). -/
def Progression.init (start : ℚ) : ProgState := .base (some start)

/-- `ArithmeticProgression.__init__` (source defaults: increment 1, start 0). -/
def ArithmeticProgression.init (increment start : ℚ) : ProgState :=
  .arith increment (some start)

/-- `GeometricProgression.__init__` (source defaults: base 2, start 1). -/
def GeometricProgression.init (b start : ℚ) : ProgState :=
  .geom b (some start)

/-- `FibonacciProgression.__init__`: current starts at `first`, and the
fictitious previous value is `second - first`. -/
def FibonacciProgression.init (first second : ℚ) : ProgState :=
  .fib (second - first) (some first)

/-- The pair `(prev, current)` of a Fibonacci progression after `n`
advances. -/
def fibPair : ℕ → ℚ → ℚ → ℚ × ℚ
  | 0, p, v => (p, v)
  | n + 1, p, v => fibPair n v (p + v)

/- ### Helper lemmas about `CreditCard` -/

lemma CreditCard.charge_denied (c : CreditCard) (price : ℚ)
    (h : c.balance + price > c.limit) : c.charge price = (false, c) := by
  unfold CreditCard.charge
  rw [if_pos (by linarith : price + c.balance > c.limit)]

lemma CreditCard.charge_ok (c : CreditCard) (price : ℚ)
    (h : c.balance + price ≤ c.limit) :
    c.charge price = (true, { c with balance := c.balance + price }) := by
  unfold CreditCard.charge
  rw [if_neg (by push_neg; linarith : ¬price + c.balance > c.limit)]

lemma CreditCard.chargeList_le (ps : List ℚ) : ∀ c : CreditCard,
    c.balance ≤ c.limit →
    (c.chargeList ps).balance ≤ (c.chargeList ps).limit ∧
    (c.chargeList ps).limit = c.limit := by
  induction ps with
  | nil => exact fun c h => ⟨h, rfl⟩
  | cons p ps ih =>
      intro c h
      have hstep : (c.charge p).2.balance ≤ (c.charge p).2.limit ∧
          (c.charge p).2.limit = c.limit := by
        unfold CreditCard.charge
        by_cases hc : p + c.balance > c.limit
        · rw [if_pos hc]
          exact ⟨h, rfl⟩
        · rw [if_neg hc]
          refine ⟨?_, rfl⟩
          show c.balance + p ≤ c.limit
          push_neg at hc
          linarith
      have hrec := ih (c.charge p).2 hstep.1
      simp only [CreditCard.chargeList]
      exact ⟨hrec.1, hrec.2.trans hstep.2⟩

/- ### Helper lemmas about `PredatoryCreditCard` -/

lemma predatory_charge_denied (p : PredatoryCreditCard) (price : ℚ)
    (h : p.balance + price > p.limit) :
    p.charge price = (false,
      { p with toCreditCard := { p.toCreditCard with balance := p.balance + 5 } }) := by
  unfold PredatoryCreditCard.charge
  rw [CreditCard.charge_denied p.toCreditCard price h]

lemma predatory_charge_accepted (p : PredatoryCreditCard) (price : ℚ)
    (h : p.balance + price ≤ p.limit) :
    p.charge price = (true,
      { p with toCreditCard := { p.toCreditCard with balance := p.balance + price } }) := by
  unfold PredatoryCreditCard.charge
  rw [CreditCard.charge_ok p.toCreditCard price h]

lemma PredatoryCreditCard.chargeList_over (qs : List ℚ) : ∀ p : PredatoryCreditCard,
    p.limit < p.balance → (∀ q ∈ qs, 0 ≤ q) →
    (p.chargeList qs).balance = p.balance + 5 * qs.length ∧
    (p.chargeList qs).limit = p.limit := by
  induction qs with
  | nil =>
      intro p _ _
      refine ⟨?_, rfl⟩
      show p.balance = p.balance + 5 * ((0 : ℕ) : ℚ)
      push_cast
      ring
  | cons q qs ih =>
      intro p h hq
      have h0 : (0 : ℚ) ≤ q := hq q (List.mem_cons_self q qs)
      have hd := predatory_charge_denied p q (by linarith)
      have hb : (p.charge q).2.balance = p.balance + 5 := by rw [hd]
      have hl : (p.charge q).2.limit = p.limit := by rw [hd]
      have hover : (p.charge q).2.limit < (p.charge q).2.balance := by
        rw [hb, hl]; linarith
      have hrec := ih (p.charge q).2 hover fun r hr => hq r (List.mem_cons_of_mem q hr)
      simp only [PredatoryCreditCard.chargeList]
      constructor
      · rw [hrec.1, hb]
        simp only [List.length_cons]
        push_cast
        ring
      · rw [hrec.2, hl]

/- ### Helper lemmas about the monthly interest factor -/

lemma monthly_factor_bounds :
    (1.0094 : ℝ) < (1.12 : ℝ) ^ ((1 : ℝ) / 12) ∧
    (1.12 : ℝ) ^ ((1 : ℝ) / 12) < (1.0095 : ℝ) := by
  have hx0 : (0 : ℝ) ≤ (1.12 : ℝ) ^ ((1 : ℝ) / 12) :=
    Real.rpow_nonneg (by norm_num) _
  have hx12 : ((1.12 : ℝ) ^ ((1 : ℝ) / 12)) ^ (12 : ℕ) = 1.12 := by
    rw [← Real.rpow_natCast ((1.12 : ℝ) ^ ((1 : ℝ) / 12)) 12,
      ← Real.rpow_mul (by norm_num : (0 : ℝ) ≤ (1.12 : ℝ))]
    have h1 : (1 : ℝ) / 12 * ((12 : ℕ) : ℝ) = 1 := by push_cast; ring
    rw [h1, Real.rpow_one]
  constructor
  · by_contra hle
    push_neg at hle
    have h2 : ((1.12 : ℝ) ^ ((1 : ℝ) / 12)) ^ (12 : ℕ) ≤ (1.0094 : ℝ) ^ (12 : ℕ) :=
      pow_le_pow_left₀ hx0 hle 12
    rw [hx12] at h2
    norm_num at h2
  · by_contra hle
    push_neg at hle
    have h2 : (1.0095 : ℝ) ^ (12 : ℕ) ≤ ((1.12 : ℝ) ^ ((1 : ℝ) / 12)) ^ (12 : ℕ) :=
      pow_le_pow_left₀ (by norm_num) hle 12
    rw [hx12] at h2
    norm_num at h2

/- ### Helper lemmas about progressions -/

lemma stepN_base (n : ℕ) : ∀ v : ℚ,
    ProgState.stepN (ProgState.base (some v)) n = ProgState.base (some (v + n)) := by
  induction n with
  | zero => intro v; norm_num [ProgState.stepN]
  | succ n ih =>
      intro v
      have e : ProgState.stepN (ProgState.base (some v)) (n + 1)
          = ProgState.stepN (ProgState.base (some (v + 1))) n := rfl
      rw [e, ih (v + 1)]
      simp only [ProgState.base.injEq, Option.some.injEq]
      push_cast
      ring

lemma stepN_arith (n : ℕ) : ∀ inc v : ℚ,
    ProgState.stepN (ProgState.arith inc (some v)) n
      = ProgState.arith inc (some (v + n * inc)) := by
  induction n with
  | zero => intro inc v; norm_num [ProgState.stepN]
  | succ n ih =>
      intro inc v
      have e : ProgState.stepN (ProgState.arith inc (some v)) (n + 1)
          = ProgState.stepN (ProgState.arith inc (some (v + inc))) n := rfl
      rw [e, ih inc (v + inc)]
      have h : v + inc + (n : ℚ) * inc = v + ((n + 1 : ℕ) : ℚ) * inc := by
        push_cast
        ring
      rw [h]

lemma stepN_geom (n : ℕ) : ∀ b v : ℚ,
    ProgState.stepN (ProgState.geom b (some v)) n
      = ProgState.geom b (some (v * b ^ n)) := by
  induction n with
  | zero => intro b v; norm_num [ProgState.stepN]
  | succ n ih =>
      intro b v
      have e : ProgState.stepN (ProgState.geom b (some v)) (n + 1)
          = ProgState.stepN (ProgState.geom b (some (v * b))) n := rfl
      rw [e, ih b (v * b)]
      have h : v * b * b ^ n = v * b ^ (n + 1) := by ring
      rw [h]

lemma stepN_fib (n : ℕ) : ∀ p v : ℚ,
    ProgState.stepN (ProgState.fib p (some v)) n
      = ProgState.fib (fibPair n p v).1 (some (fibPair n p v).2) := by
  induction n with
  | zero => intro p v; rfl
  | succ n ih =>
      intro p v
      have e : ProgState.stepN (ProgState.fib p (some v)) (n + 1)
          = ProgState.stepN (ProgState.fib v (some (p + v))) n := rfl
      rw [e, ih v (p + v)]
      rfl

lemma fibPair_fst_succ : ∀ (n : ℕ) (p v : ℚ),
    (fibPair (n + 1) p v).1 = (fibPair n p v).2
  | 0, _, _ => rfl
  | n + 1, p, v => fibPair_fst_succ n v (p + v)

lemma fibPair_snd_succ : ∀ (n : ℕ) (p v : ℚ),
    (fibPair (n + 1) p v).2 = (fibPair n p v).1 + (fibPair n p v).2
  | 0, _, _ => rfl
  | n + 1, p, v => fibPair_snd_succ n v (p + v)

lemma term_base (start : ℚ) (k : ℕ) :
    (Progression.init start).term k = some (start + k) := by
  unfold ProgState.term Progression.init
  rw [stepN_base]
  rfl

lemma term_arith (inc start : ℚ) (k : ℕ) :
    (ArithmeticProgression.init inc start).term k = some (start + k * inc) := by
  unfold ProgState.term ArithmeticProgression.init
  rw [stepN_arith]
  rfl

lemma term_geom (b start : ℚ) (k : ℕ) :
    (GeometricProgression.init b start).term k = some (start * b ^ k) := by
  unfold ProgState.term GeometricProgression.init
  rw [stepN_geom]
  rfl

lemma term_fib (first second : ℚ) (k : ℕ) :
    (FibonacciProgression.init first second).term k
      = some ((fibPair k (second - first) first).2) := by
  unfold ProgState.term FibonacciProgression.init
  rw [stepN_fib]
  rfl

/- ### Claim theorems -/

/-- Claim C1: for every base account (`CreditCard`) and every numeric price,
`charge price` returns `false` and leaves the state unchanged when
`balance + price > limit`, and otherwise adds the price to the balance and
returns `true`; in particular `Account('A','B','111',2500)` accepts a 2400
charge (balance 2400) and then rejects a 200 charge (balance still 2400). -/
theorem creditCard_charge_spec :
    (∀ (c : CreditCard) (price : ℚ),
      (c.balance + price > c.limit → c.charge price = (false, c)) ∧
      (c.balance + price ≤ c.limit →
        c.charge price = (true, { c with balance := c.balance + price }))) ∧
    ((CreditCard.init "A" "B" "111" 2500).charge 2400).1 = true ∧
    ((CreditCard.init "A" "B" "111" 2500).charge 2400).2.balance = 2400 ∧
    (((CreditCard.init "A" "B" "111" 2500).charge 2400).2.charge 200).1 = false ∧
    (((CreditCard.init "A" "B" "111" 2500).charge 2400).2.charge 200).2.balance = 2400 := by
  refine ⟨fun c price => ⟨fun h => CreditCard.charge_denied c price h,
    fun h => CreditCard.charge_ok c price h⟩, ?_, ?_, ?_, ?_⟩ <;>
      norm_num [CreditCard.init, CreditCard.charge]

/-- Witness for C1: the two branch hypotheses are discharged on the concrete
account of the claim's scenario. -/
theorem creditCard_charge_spec_witness :
    ((CreditCard.init "A" "B" "111" 2500).balance + 2400
        ≤ (CreditCard.init "A" "B" "111" 2500).limit ∧
      (CreditCard.init "A" "B" "111" 2500).charge 2400
        = (true, { CreditCard.init "A" "B" "111" 2500 with
            balance := (CreditCard.init "A" "B" "111" 2500).balance + 2400 })) ∧
    ((CreditCard.init "A" "B" "111" 100).balance + 200
        > (CreditCard.init "A" "B" "111" 100).limit ∧
      (CreditCard.init "A" "B" "111" 100).charge 200
        = (false, CreditCard.init "A" "B" "111" 100)) :=
  ⟨⟨by norm_num [CreditCard.init],
    (creditCard_charge_spec.1 (CreditCard.init "A" "B" "111" 2500) 2400).2
      (by norm_num [CreditCard.init])⟩,
   ⟨by norm_num [CreditCard.init],
    (creditCard_charge_spec.1 (CreditCard.init "A" "B" "111" 100) 200).1
      (by norm_num [CreditCard.init])⟩⟩

/-- Claim C2 is false as stated for accounts whose constructed limit is
negative: `Account('A','B','111',-1)` has balance 0 after a (rejected)
charge of 5, and 0 exceeds the limit -1. -/
theorem creditCard_invariant_counterexample :
    ((CreditCard.init "A" "B" "111" (-1)).chargeList [5]).limit
      < ((CreditCard.init "A" "B" "111" (-1)).chargeList [5]).balance := by
  norm_num [CreditCard.init, CreditCard.chargeList, CreditCard.charge]

/-- Claim C2 (amended): for every base account whose constructed credit
limit is nonnegative — so that the initial zero balance does not already
exceed it — after any sequence of charges `balance ≤ limit` holds; and for
every account, a charge that is accepted always leaves `balance ≤ limit`
(charge never accepts a balance-exceeding transaction). -/
theorem creditCard_invariant_amended :
    (∀ (customer bank acnt : String) (limit : ℚ) (prices : List ℚ),
      0 ≤ limit →
      ((CreditCard.init customer bank acnt limit).chargeList prices).balance ≤ limit) ∧
    (∀ (c : CreditCard) (price : ℚ), (c.charge price).1 = true →
      (c.charge price).2.balance ≤ (c.charge price).2.limit) := by
  constructor
  · intro customer bank acnt limit prices h
    have hinv := CreditCard.chargeList_le prices (CreditCard.init customer bank acnt limit) h
    exact le_of_le_of_eq hinv.1 (hinv.2.trans rfl)
  · intro c price h
    by_cases hc : c.balance + price > c.limit
    · rw [CreditCard.charge_denied c price hc] at h
      exact absurd h (by simp)
    · push_neg at hc
      rw [CreditCard.charge_ok c price hc]
      show c.balance + price ≤ c.limit
      linarith

/-- Witness for C2 (amended): a nonnegative limit, with the claim's concrete
charge sequence. -/
theorem creditCard_invariant_amended_witness :
    (0 : ℚ) ≤ 2500 ∧
    ((CreditCard.init "A" "B" "111" 2500).chargeList [2400, 200]).balance ≤ 2500 :=
  ⟨by norm_num,
   creditCard_invariant_amended.1 "A" "B" "111" 2500 [2400, 200] (by norm_num)⟩

/-- Claim C3: for every predatory account and price, a rejected charge
(`balance + price > limit`) returns `false` and increases the balance by
exactly 5, and an accepted charge returns `true` and increases the balance
by exactly the price; in particular a fresh
`PredatoryAccount('A','B','111',2500, apr=0.12)` charged 2600 returns
`false` with balance 5. -/
theorem predatory_charge_spec :
    (∀ (p : PredatoryCreditCard) (price : ℚ),
      (p.balance + price > p.limit →
        (p.charge price).1 = false ∧ (p.charge price).2.balance = p.balance + 5) ∧
      (p.balance + price ≤ p.limit →
        (p.charge price).1 = true ∧ (p.charge price).2.balance = p.balance + price)) ∧
    ((PredatoryCreditCard.init "A" "B" "111" 2500 0.12).charge 2600).1 = false ∧
    ((PredatoryCreditCard.init "A" "B" "111" 2500 0.12).charge 2600).2.balance = 5 := by
  refine ⟨fun p price => ⟨fun h => ?_, fun h => ?_⟩, ?_, ?_⟩
  · rw [predatory_charge_denied p price h]
    exact ⟨rfl, rfl⟩
  · rw [predatory_charge_accepted p price h]
    exact ⟨rfl, rfl⟩
  · norm_num [PredatoryCreditCard.init, CreditCard.init, PredatoryCreditCard.charge,
      CreditCard.charge]
  · norm_num [PredatoryCreditCard.init, CreditCard.init, PredatoryCreditCard.charge,
      CreditCard.charge]

/-- Witness for C3: the rejection hypothesis discharged at the claim's
concrete predatory account and price. -/
theorem predatory_charge_spec_witness :
    ((PredatoryCreditCard.init "A" "B" "111" 2500 0.12).balance + 2600
        > (PredatoryCreditCard.init "A" "B" "111" 2500 0.12).limit) ∧
    ((PredatoryCreditCard.init "A" "B" "111" 2500 0.12).charge 2600).1 = false ∧
    ((PredatoryCreditCard.init "A" "B" "111" 2500 0.12).charge 2600).2.balance
      = (PredatoryCreditCard.init "A" "B" "111" 2500 0.12).balance + 5 :=
  ⟨by norm_num [PredatoryCreditCard.init, CreditCard.init],
   (predatory_charge_spec.1 (PredatoryCreditCard.init "A" "B" "111" 2500 0.12) 2600).1
     (by norm_num [PredatoryCreditCard.init, CreditCard.init])⟩

/-- Claim C4: `process_month` multiplies the balance by `(1 + apr) ^ (1/12)`
when the balance is positive and leaves the state unchanged otherwise; with
balance 1000 and apr 0.12 one call yields `1000 * 1.12 ^ (1/12)`, which lies
between 1009.4 and 1009.5 (≈ 1009.49). -/
theorem process_month_spec :
    (∀ s : PredatoryAccountR, 0 < s.balance →
      s.process_month = ⟨s.balance * (1 + s.apr) ^ ((1 : ℝ) / 12), s.apr⟩) ∧
    (∀ s : PredatoryAccountR, s.balance ≤ 0 → s.process_month = s) ∧
    (PredatoryAccountR.mk 1000 0.12).process_month.balance
      = (1000 : ℝ) * (1.12 : ℝ) ^ ((1 : ℝ) / 12) ∧
    (1009.4 : ℝ) < (PredatoryAccountR.mk 1000 0.12).process_month.balance ∧
    (PredatoryAccountR.mk 1000 0.12).process_month.balance < (1009.5 : ℝ) := by
  have hpos : ∀ s : PredatoryAccountR, 0 < s.balance →
      s.process_month = ⟨s.balance * (1 + s.apr) ^ ((1 : ℝ) / 12), s.apr⟩ := by
    intro s h
    unfold PredatoryAccountR.process_month
    rw [if_pos h]
  have hbal : (PredatoryAccountR.mk 1000 0.12).process_month.balance
      = (1000 : ℝ) * (1.12 : ℝ) ^ ((1 : ℝ) / 12) := by
    rw [hpos (PredatoryAccountR.mk 1000 0.12) (by norm_num)]
    norm_num
  refine ⟨hpos, ?_, hbal, ?_, ?_⟩
  · intro s h
    unfold PredatoryAccountR.process_month
    rw [if_neg (not_lt.2 h)]
  · rw [hbal]
    have := monthly_factor_bounds.1
    linarith
  · rw [hbal]
    have := monthly_factor_bounds.2
    linarith

/-- Witness for C4: both branch hypotheses discharged at concrete accounts
(balance 1000 with apr 0.12, and a nonpositive balance -1). -/
theorem process_month_spec_witness :
    ((0 : ℝ) < (PredatoryAccountR.mk 1000 0.12).balance ∧
      (PredatoryAccountR.mk 1000 0.12).process_month
        = ⟨(PredatoryAccountR.mk 1000 0.12).balance
            * (1 + (PredatoryAccountR.mk 1000 0.12).apr) ^ ((1 : ℝ) / 12),
           (PredatoryAccountR.mk 1000 0.12).apr⟩) ∧
    ((PredatoryAccountR.mk (-1) 0.12).balance ≤ 0 ∧
      (PredatoryAccountR.mk (-1) 0.12).process_month = PredatoryAccountR.mk (-1) 0.12) :=
  ⟨⟨by norm_num, process_month_spec.1 (PredatoryAccountR.mk 1000 0.12) (by norm_num)⟩,
   ⟨by norm_num, process_month_spec.2.1 (PredatoryAccountR.mk (-1) 0.12) (by norm_num)⟩⟩

/-- Claim C5: `make_payment amount` unconditionally subtracts the amount
from the balance, for the base and the predatory account alike, with no
clamping or validation: a negative amount increases the balance and the
result may be negative. -/
theorem make_payment_spec :
    (∀ (c : CreditCard) (amount : ℚ),
      c.make_payment amount = { c with balance := c.balance - amount }) ∧
    (∀ (p : PredatoryCreditCard) (amount : ℚ),
      (p.make_payment amount).balance = p.balance - amount ∧
      (p.make_payment amount).limit = p.limit ∧
      (p.make_payment amount).apr = p.apr) ∧
    ((CreditCard.init "A" "B" "111" 100).make_payment (-5)).balance = 5 ∧
    ((CreditCard.init "A" "B" "111" 100).make_payment 300).balance = -300 := by
  refine ⟨fun c amount => rfl, fun p amount => ⟨rfl, rfl, rfl⟩, ?_, ?_⟩ <;>
    norm_num [CreditCard.init, CreditCard.make_payment]

/-- Claim C6: for every progression state, `__next__` signals end of
sequence exactly when the current value is the `none` sentinel; in that case
the state is unchanged, so every later attempt fails as well; and on a
non-exhausted state it returns the current value and performs exactly one
advance step. -/
theorem progression_next_spec :
    ∀ s : ProgState,
      ((s.step).1 = none ↔ s.currentOpt = none) ∧
      (s.currentOpt = none → ∀ k : ℕ, s.stepN k = s ∧ ((s.stepN k).step).1 = none) ∧
      (∀ v : ℚ, s.currentOpt = some v → s.step = (some v, s.advance)) := by
  intro s
  have hnone : s.currentOpt = none → s.step = (none, s) := by
    intro h
    unfold ProgState.step
    rw [h]
  have hsome : ∀ v : ℚ, s.currentOpt = some v → s.step = (some v, s.advance) := by
    intro v h
    unfold ProgState.step
    rw [h]
  refine ⟨⟨?_, fun h => by rw [hnone h]⟩, ?_, hsome⟩
  · intro h1
    cases hc : s.currentOpt with
    | none => rfl
    | some v =>
        rw [hsome v hc] at h1
        exact absurd h1 (by simp)
  · intro h
    have hN : ∀ k : ℕ, s.stepN k = s := by
      intro k
      induction k with
      | zero => rfl
      | succ n ih =>
          have e : s.stepN (n + 1) = ProgState.stepN (s.step).2 n := rfl
          rw [e, hnone h]
          exact ih
    exact fun k => ⟨hN k, by rw [hN k, hnone h]⟩

/-- Witness for C6: an exhausted base progression stays exhausted through
three further production attempts, and an active arithmetic progression
produces its current value. -/
theorem progression_next_spec_witness :
    (ProgState.base none).currentOpt = none ∧
    ((ProgState.base none).stepN 3 = ProgState.base none ∧
      (((ProgState.base none).stepN 3).step).1 = none) ∧
    ((ProgState.arith 5 (some 2)).currentOpt = some 2 ∧
      (ProgState.arith 5 (some 2)).step
        = (some 2, (ProgState.arith 5 (some 2)).advance)) :=
  ⟨rfl,
   (progression_next_spec (ProgState.base none)).2.1 rfl 3,
   ⟨rfl, (progression_next_spec (ProgState.arith 5 (some 2))).2.2 2 rfl⟩⟩

/-- Claim C7: for the four variants constructed with numeric parameters the
exhausted sentinel is unreachable: after any number of production calls the
current value is still present, and every call produces a numeric value
(the end-of-sequence branch is never taken). -/
theorem progression_never_exhausts :
    ∀ (start inc b first second : ℚ) (n : ℕ),
      ((Progression.init start).stepN n).currentOpt.isSome = true ∧
      ((Progression.init start).term n).isSome = true ∧
      ((ArithmeticProgression.init inc start).stepN n).currentOpt.isSome = true ∧
      ((ArithmeticProgression.init inc start).term n).isSome = true ∧
      ((GeometricProgression.init b start).stepN n).currentOpt.isSome = true ∧
      ((GeometricProgression.init b start).term n).isSome = true ∧
      ((FibonacciProgression.init first second).stepN n).currentOpt.isSome = true ∧
      ((FibonacciProgression.init first second).term n).isSome = true := by
  intro start inc b first second n
  refine ⟨?_, ?_, ?_, ?_, ?_, ?_, ?_, ?_⟩
  · unfold Progression.init
    rw [stepN_base]
    rfl
  · rw [term_base]
    rfl
  · unfold ArithmeticProgression.init
    rw [stepN_arith]
    rfl
  · rw [term_arith]
    rfl
  · unfold GeometricProgression.init
    rw [stepN_geom]
    rfl
  · rw [term_geom]
    rfl
  · unfold FibonacciProgression.init
    rw [stepN_fib]
    rfl
  · rw [term_fib]
    rfl

/-- Claim C8: `FibonacciProgression(first, second)` starts with current =
`first` and previous = `second - first`; the produced terms start with
`first`, then `second`, and every later term is the sum of the two
preceding ones; `FibonacciProgression(4, 6)` produces 4 6 10 16 26 42. -/
theorem fibonacci_spec :
    ∀ first second : ℚ,
      FibonacciProgression.init first second
        = ProgState.fib (second - first) (some first) ∧
      (FibonacciProgression.init first second).term 0 = some first ∧
      (FibonacciProgression.init first second).term 1 = some second ∧
      (∀ k : ℕ, ∃ a c : ℚ,
        (FibonacciProgression.init first second).term k = some a ∧
        (FibonacciProgression.init first second).term (k + 1) = some c ∧
        (FibonacciProgression.init first second).term (k + 2) = some (a + c)) ∧
      ((FibonacciProgression.init 4 6).term 0 = some 4 ∧
        (FibonacciProgression.init 4 6).term 1 = some 6 ∧
        (FibonacciProgression.init 4 6).term 2 = some 10 ∧
        (FibonacciProgression.init 4 6).term 3 = some 16 ∧
        (FibonacciProgression.init 4 6).term 4 = some 26 ∧
        (FibonacciProgression.init 4 6).term 5 = some 42) := by
  intro first second
  refine ⟨rfl, ?_, ?_, ?_, ?_⟩
  · rw [term_fib]
    rfl
  · rw [term_fib]
    show some (second - first + first) = some second
    congr 1
    ring
  · intro k
    refine ⟨(fibPair k (second - first) first).2,
      (fibPair (k + 1) (second - first) first).2,
      term_fib first second k, term_fib first second (k + 1), ?_⟩
    rw [term_fib]
    congr 1
    have e : k + 2 = k + 1 + 1 := rfl
    rw [e, fibPair_snd_succ (k + 1), fibPair_fst_succ k]
  · norm_num [term_fib, fibPair]

/-- Claim C9: the `k`-th produced term of `ArithmeticProgression(inc, start)`
is `start + k * inc` and that of `GeometricProgression(b, start)` is
`start * b ^ k`; `ArithmeticProgression(5, start=2)` produces 2 7 12 17 22
and `GeometricProgression(3)` (start 1) produces 1 3 9 27 81. -/
theorem progression_closed_forms :
    (∀ (inc start : ℚ) (k : ℕ),
      (ArithmeticProgression.init inc start).term k = some (start + k * inc)) ∧
    (∀ (b start : ℚ) (k : ℕ),
      (GeometricProgression.init b start).term k = some (start * b ^ k)) ∧
    ((ArithmeticProgression.init 5 2).term 0 = some 2 ∧
      (ArithmeticProgression.init 5 2).term 1 = some 7 ∧
      (ArithmeticProgression.init 5 2).term 2 = some 12 ∧
      (ArithmeticProgression.init 5 2).term 3 = some 17 ∧
      (ArithmeticProgression.init 5 2).term 4 = some 22) ∧
    ((GeometricProgression.init 3 1).term 0 = some 1 ∧
      (GeometricProgression.init 3 1).term 1 = some 3 ∧
      (GeometricProgression.init 3 1).term 2 = some 9 ∧
      (GeometricProgression.init 3 1).term 3 = some 27 ∧
      (GeometricProgression.init 3 1).term 4 = some 81) := by
  refine ⟨fun inc start k => term_arith inc start k,
    fun b start k => term_geom b start k, ?_, ?_⟩
  · norm_num [term_arith]
  · norm_num [term_geom]

/-- Claim C10 (implicit): once a predatory account's balance strictly
exceeds its limit, every charge with a nonnegative price is rejected and
adds exactly 5, so the over-limit condition is preserved; a whole list of
nonnegative charges grows the balance by 5 per attempt, the balance grows
without bound, and a payment can bring the balance back to the limit. -/
theorem predatory_over_limit_spec :
    (∀ (p : PredatoryCreditCard) (price : ℚ),
      p.limit < p.balance → 0 ≤ price →
      (p.charge price).1 = false ∧
      (p.charge price).2.balance = p.balance + 5 ∧
      (p.charge price).2.limit < (p.charge price).2.balance) ∧
    (∀ (p : PredatoryCreditCard) (qs : List ℚ),
      p.limit < p.balance → (∀ q ∈ qs, 0 ≤ q) →
      (p.chargeList qs).balance = p.balance + 5 * qs.length ∧
      (p.chargeList qs).limit < (p.chargeList qs).balance) ∧
    (∀ (p : PredatoryCreditCard) (M : ℚ), ∃ n : ℕ, M < p.balance + 5 * n) ∧
    (∀ p : PredatoryCreditCard,
      (p.make_payment (p.balance - p.limit)).balance
        ≤ (p.make_payment (p.balance - p.limit)).limit) := by
  refine ⟨?_, ?_, ?_, ?_⟩
  · intro p price h hp
    rw [predatory_charge_denied p price (by linarith)]
    refine ⟨rfl, rfl, ?_⟩
    show p.limit < p.balance + 5
    linarith
  · intro p qs h hq
    have hrec := PredatoryCreditCard.chargeList_over qs p h hq
    refine ⟨hrec.1, ?_⟩
    rw [hrec.1, hrec.2]
    have hlen : (0 : ℚ) ≤ (qs.length : ℚ) := Nat.cast_nonneg _
    linarith
  · intro p M
    obtain ⟨n, hn⟩ := exists_nat_gt ((M - p.balance) / 5)
    refine ⟨n, ?_⟩
    have h5 := (div_lt_iff₀ (by norm_num : (0 : ℚ) < 5)).1 hn
    linarith
  · intro p
    show p.balance - (p.balance - p.limit) ≤ p.limit
    linarith

/-- A predatory account whose balance 2600 already exceeds its limit 2500,
reached for instance by charging 2600 + penalties; used as the witness input
for the over-limit claim. -/
def predOver : PredatoryCreditCard :=
  { toCreditCard :=
      { customer := "A", bank := "B", account := "111", limit := 2500, balance := 2600 },
    apr := 0.12 }

/-- Witness for C10: a predatory account at balance 2600 over the limit
2500, with the nonnegative price 0 and the nonnegative price list [1, 2]. -/
theorem predatory_over_limit_spec_witness :
    (predOver.limit < predOver.balance ∧ (0 : ℚ) ≤ 0) ∧
    (predOver.charge 0).1 = false ∧
    (predOver.chargeList [1, 2]).balance
      = predOver.balance + 5 * (([1, 2] : List ℚ).length : ℚ) :=
  ⟨⟨by norm_num [predOver], by norm_num⟩,
   (predatory_over_limit_spec.1 predOver 0 (by norm_num [predOver]) (by norm_num)).1,
   (predatory_over_limit_spec.2.1 predOver [1, 2] (by norm_num [predOver])
     (by intro q hq; fin_cases hq <;> norm_num)).1⟩
